import Mathlib

/-!
Shallow embedding of the nowcast-template repository:
  - `src/fusion/datasetname_location_mapper.py` (population-weight matrices),
  - `src/sensors/sensor_update.py` (loch-ness fitting and the update loop),
  - `src/sensors/isch.py` (ISCH training-window logic),
  - `src/util/datasetname_data_source.py` (missing-location reporting).
External collaborators (geo hierarchy, population table, the fusion
statespace reducer, the Epidata fetches, the model solver over floats) are
parameters of the embedded functions; machine floats are modelled as exact
rationals (ℚ) or reals (ℝ).
-/

namespace Nowcast

/-! ## datasetname_data_source.py -/

/-- List `DatasetnameDataSource.ATOMIC_LOCATIONS` from
`src/util/datasetname_data_source.py`. -/
def ATOMIC_LOCATIONS : List String :=
  ["ak", "al", "ar", "az", "ca", "co", "ct", "dc", "de",
   "fl", "ga", "hi", "ia", "id", "il", "in", "ks", "ky",
   "la", "ma", "md", "me", "mi", "mn", "mo", "ms", "mt",
   "nc", "nd", "ne", "nh", "nj", "nm", "nv", "ny", "oh",
   "ok", "or", "pa", "pr", "ri", "sc", "sd", "tn", "tx",
   "ut", "va", "vi", "vt", "wa", "wi", "wv", "wy"]

/-- List `DatasetnameDataSource.ALL_LOCATIONS`: a copy of the atomic list. -/
def ALL_LOCATIONS : List String := ATOMIC_LOCATIONS

/-- Embedding of `DatasetnameDataSource.get_missing_locations`.  The truth
lookup `self.get_truth_value` (an external data access) is the parameter
`truth`.  The Python function works with sets (it returns
`tuple(atomic_locations - set(available_locations))`, in arbitrary order), so
the result is modelled as a `Finset`. -/
def get_missing_locations (truth : ℤ → String → Option ℚ) (epiweek : ℤ) :
    Finset String :=
  let atomic_locations := ATOMIC_LOCATIONS.toFinset
  let available_locations :=
    atomic_locations.filter (fun loc => (truth epiweek loc).isSome)
  if available_locations.Nonempty then
    atomic_locations \ available_locations
  else
    ∅

/-! ## datasetname_location_mapper.py -/

/-- External collaborators of the mapper: `Locations.region_map` (the set of
atoms contained in a named location) and `get_population` (population of an
atom, optionally for a given season year), both from `delphi.utils.geo`. -/
structure GeoData where
  regionMap : String → List String
  getPop : String → Option ℕ → ℕ

/-- Equality on `Except` values is decidable when it is on both components;
witnesses below evaluate embedded functions with `decide`. -/
instance {ε α : Type} [DecidableEq ε] [DecidableEq α] :
    DecidableEq (Except ε α) := fun x y =>
  match x, y with
  | .error a, .error b =>
    decidable_of_iff (a = b)
      (by constructor
          · intro h; rw [h]
          · intro h; cases h; rfl)
  | .error _, .ok _ => .isFalse (by intro h; cases h)
  | .ok _, .error _ => .isFalse (by intro h; cases h)
  | .ok a, .ok b =>
    decidable_of_iff (a = b)
      (by constructor
          · intro h; rw [h]
          · intro h; cases h; rfl)

/-- Remapping on line 64 of `datasetname_location_mapper.py`:
`['ny_minus_jfk','jfk'] if atom=='ny' else [atom]`. -/
def remapAtom (atom : String) : List String :=
  if atom = "ny" then ["ny_minus_jfk", "jfk"] else [atom]

/-- Population contributed by one atom to one location: the inner loop of
`get_weight_row` (lines 64-78).  A remapping atom contributes its population
when it lies in `Locations.region_map[location]`, and `0` otherwise; the
season, when given, is first remapped to `max(season, 2013)`. -/
def atomPopulation (g : GeoData) (location : String) (season : Option ℕ)
    (atom : String) : ℕ :=
  ((remapAtom atom).map (fun remapping_atom =>
    if remapping_atom ∈ g.regionMap location then
      match season with
      | some s => g.getPop remapping_atom (some (max s 2013))
      | none => g.getPop remapping_atom none
    else 0)).sum

/-- Errors raised by the mapper: `EmptyLocationError`
(`'location has no constituent atoms'`, carrying the location) and
`InvalidStatespaceRequest` (`'input contains excluded locations'`). -/
inductive MapperError where
  | emptyLocation (location : String)
  | invalidStatespaceRequest
deriving DecidableEq, Repr

/-- Total population of a location over a list of atoms
(`total_population` in `get_weight_row`). -/
def rowTotal (g : GeoData) (location : String) (season : Option ℕ)
    (atoms : List String) : ℕ :=
  (atoms.map (atomPopulation g location season)).sum

/-- Embedding of `DatasetnameLocationMapper.get_weight_row`: per-atom
populations, the zero-total sanity check, then exact `Fraction`
normalization. -/
def get_weight_row (g : GeoData) (location : String) (season : Option ℕ)
    (atoms : List String) : Except MapperError (List ℚ) :=
  let atom_populations := atoms.map (atomPopulation g location season)
  let total_population := atom_populations.sum
  if total_population = 0 then
    .error (.emptyLocation location)
  else
    .ok (atom_populations.map
      (fun (pop : ℕ) => (pop : ℚ) / (total_population : ℚ)))

/-- Embedding of `DatasetnameLocationMapper.get_weight_matrix`: one weight row
per location, in order; the first failing row aborts the whole matrix (a
Python exception propagates out of `np.array(list(map(...)))`). -/
def get_weight_matrix (g : GeoData) (locations : List String)
    (season : Option ℕ) (atoms : List String) :
    Except MapperError (List (List ℚ)) :=
  match locations with
  | [] => .ok []
  | loc :: rest =>
    match get_weight_row g loc season atoms with
    | .error e => .error e
    | .ok row =>
      match get_weight_matrix g rest season atoms with
      | .error e => .error e
      | .ok m => .ok (row :: m)

/-- Boolean form of the `atom_filter` lambda on line 137:
`lambda a: a not in exclude_locations`. -/
def atom_filter (exclude_locations : List String) (a : String) : Bool :=
  decide (a ∉ exclude_locations)

/-- Embedding of `DatasetnameLocationMapper.determine_statespace`.  The
external fusion kernel `fusion.determine_statespace` is the parameter
`reduce`; the catalogue `data_source.ALL_LOCATIONS` and
`data_source.ATOMIC_LOCATIONS` are the parameters `all_locations_catalog` and
`atomic_locations`.  The Python locals `all_locations` and `atoms` (the
filtered catalogue and filtered atom list) are inlined at their use sites.
The Python function converts the exact-fraction matrices to floats only at
the return boundary; the embedding returns the exact matrices themselves. -/
def determine_statespace
    (reduce : List (List ℚ) → List (List ℚ) →
      List (List ℚ) × List (List ℚ) × List ℕ)
    (g : GeoData) (all_locations_catalog atomic_locations : List String)
    (input_locations : List String) (season : Option ℕ)
    (exclude_locations : List String) :
    Except MapperError (List (List ℚ) × List (List ℚ) × List String) :=
  if exclude_locations.any (fun x => decide (x ∈ input_locations)) then
    .error .invalidStatespaceRequest
  else
    match get_weight_matrix g input_locations season
        (atomic_locations.filter (atom_filter exclude_locations)) with
    | .error e => .error e
    | .ok H0 =>
      match get_weight_matrix g
          (all_locations_catalog.filter (atom_filter exclude_locations)) season
          (atomic_locations.filter (atom_filter exclude_locations)) with
      | .error e => .error e
      | .ok W0 =>
        if (atomic_locations.filter (atom_filter exclude_locations)).all
            (fun a => decide (a ∈ input_locations)) then
          .ok (H0, W0, all_locations_catalog.filter (atom_filter exclude_locations))
        else
          let (H, W, selected_rows) := reduce H0 W0
          .ok (H, W, selected_rows.filterMap (fun i =>
            (all_locations_catalog.filter (atom_filter exclude_locations)).get? i))

/-! ## sensor_update.py: SensorFitting.fit_loch_ness

Epiweeks are modelled on an absolute integer week axis: `flu.add_epiweeks`
is `+` and `flu.delta_epiweeks` is subtraction (the YYYYWW encoding and its
arithmetic live in the external `delphi.utils.epiweek`). -/

/-- Python-dict update on an association list: overwrite in place when the key
exists, append otherwise.  Keys stay pairwise distinct and keep insertion
order, as in a Python `dict`. -/
def upsert {α : Type} (m : List (ℤ × α)) (k : ℤ) (v : α) : List (ℤ × α) :=
  if m.any (fun p => p.1 = k) then
    m.map (fun p => if p.1 = k then (k, v) else p)
  else
    m ++ [(k, v)]

/-- Python-dict lookup on an association list. -/
def dictFind {α : Type} (m : List (ℤ × α)) (k : ℤ) : Option α :=
  (m.find? (fun p => p.1 = k)).map Prod.snd

/-- Embedding of the `extract` helper of `fit_loch_ness` (lines 93-97): turn
fetched rows into a dict from shifted epiweek to the row's field values.  A
fetched row is `(epiweek, field values)` with the values given per field
name. -/
def extractSignal (fields : List String) (rows : List (ℤ × (String → ℚ)))
    (signal_to_truth_ew_shift : ℤ) : List (ℤ × List ℚ) :=
  rows.foldl
    (fun data row =>
      upsert data (row.1 + signal_to_truth_ew_shift) (fields.map row.2)) []

/-- Embedding of the `get_training_set_datasetname` helper of `fit_loch_ness`
(lines 105-132).  The fetched ground-truth rows are `groundTruthRows`; the
week being predicted is `ew3`.  A signal week whose ground-truth week equals
`ew3` is skipped; one whose ground truth is missing is dropped. -/
def trainingFold (groundTruth : List (ℤ × ℚ)) (ew3 signal_to_truth_ew_shift : ℤ)
    (data : List (ℤ × (List ℚ × ℚ))) (p : ℤ × List ℚ) :
    List (ℤ × (List ℚ × ℚ)) :=
  let ground_truth_week := p.1 + signal_to_truth_ew_shift
  if ground_truth_week = ew3 then data
  else
    match dictFind groundTruth ground_truth_week with
    | some label => upsert data ground_truth_week (p.2, label)
    | none => data

/-- Continuation of the embedding of `get_training_set_datasetname`: fold the
per-signal-week step over the signal, then sort the surviving ground-truth
weeks and read the aligned covariates and labels back out. -/
def get_training_set_datasetname (groundTruthRows : List (ℤ × ℚ))
    (signal : List (ℤ × List ℚ)) (ew3 signal_to_truth_ew_shift : ℤ) :
    List ℤ × List (List ℚ) × List ℚ :=
  let groundTruth := groundTruthRows.foldl (fun m row => upsert m row.1 row.2) []
  let data := signal.foldl (trainingFold groundTruth ew3 signal_to_truth_ew_shift)
    ([] : List (ℤ × (List ℚ × ℚ)))
  let epiweeks := (data.map Prod.fst).mergeSort (fun a b => decide (a ≤ b))
  (epiweeks,
   epiweeks.map (fun week => ((dictFind data week).getD ([], 0)).1),
   epiweeks.map (fun week => ((dictFind data week).getD ([], 0)).2))

/-- Errors raised by `fit_loch_ness`: `'%s unavailable on %d'`,
`'%s available less than %d weeks'`, and
`'datasetname_targets available less than %d weeks'`. -/
inductive FitError where
  | signalUnavailable (name : String) (ew3 : ℤ)
  | insufficientSignalHistory (name : String) (min_rows : ℕ)
  | insufficientLabelHistory (min_rows : ℕ)
deriving DecidableEq, Repr

/-- Embedding of `SensorFitting.fit_loch_ness` (lines 198-220), after the
fetch.  The numeric weighted-least-squares solver `get_model` and the
evaluator `apply_model` (floating-point linear algebra) are the parameters
`getModel` and `applyModel`. -/
def fit_loch_ness
    (getModel : ℤ → List ℤ → List (List ℚ) → List ℚ → List ℚ)
    (applyModel : ℤ → List ℚ → List ℚ → ℚ)
    (name : String) (fields : List String)
    (rows : List (ℤ × (String → ℚ))) (groundTruthRows : List (ℤ × ℚ))
    (epiweek : ℤ) (signal_to_truth_ew_shift : ℤ) : Except FitError ℚ :=
  let ew3 := epiweek + 1
  let signal := extractSignal fields rows signal_to_truth_ew_shift
  let min_rows := max (10 * fields.length) 52
  if (dictFind signal ew3).isNone then
    .error (.signalUnavailable name ew3)
  else if signal.length < min_rows then
    .error (.insufficientSignalHistory name min_rows)
  else
    let tr := get_training_set_datasetname groundTruthRows signal ew3
      signal_to_truth_ew_shift
    if tr.2.2.length < min_rows - 1 then
      .error (.insufficientLabelHistory (min_rows - 1))
    else
      .ok (applyModel ew3 (getModel ew3 tr.1 tr.2.1 tr.2.2)
        ((dictFind signal ew3).getD []))

/-! ## sensor_update.py: the loch-ness weight kernel (lines 143-160) -/

/-- Python float modulo `x % y` for positive `y`: `x - y * ⌊x / y⌋`. -/
noncomputable def fmod (x y : ℝ) : ℝ := x - y * ⌊x / y⌋

/-- Embedding of the `get_weight` helper of `fit_loch_ness`, as a function of
`dw = flu.delta_epiweeks(ew1, ew2)`, the distance in weeks from the training
week to the target week. -/
noncomputable def get_weight (dw : ℝ) : ℝ :=
  let yr : ℝ := 52.2
  let hl1 : ℝ := yr
  let hl2 : ℝ := 1
  let bw : ℝ := 4
  let a : ℝ := 0.05
  let b : ℝ := Real.exp (-((min (fmod dw yr) (yr - fmod dw yr) / bw) ^ 2))
  let c : ℝ := (2 : ℝ) ^ (-(dw / hl1))
  let d : ℝ := 1 - (2 : ℝ) ^ (-(dw / hl2))
  (a + (1 - a) * b) * c * d

/-! ## isch.py: ISCH.train -/

/-- Errors raised by `ISCH.train`: the `IndexError` from `self.weeks[2]` when
fewer than three data weeks exist, `'The available data are too "fresh" ...'`,
the `KeyError` from `self.data[i + 1]['stable']` when a window week has no
data, and `'Found {} training instances, but required at least {}.'`. -/
inductive ISCHTrainError where
  | indexError
  | insufficientHistory (needed : ℤ)
  | missingData (index : ℤ)
  | insufficientTrainingData (found : ℤ) (required : ℤ)
deriving DecidableEq, Repr

/-- Number of columns of the ISCH feature matrix (`X.shape[1]`): intercept,
four holiday indicators, sin, cos. -/
def featureCount : ℕ := 7

/-- Labels gathered by the training loop of `ISCH.train` (lines 120-123):
`Y[r, 0] = self.data[i + 1]['stable']` for `i` running over `n` indices
starting at `start`; a missing week raises a `KeyError`. -/
def trainLabels (data : ℤ → Option ℚ) (start : ℤ) :
    ℕ → Except ISCHTrainError (List ℚ)
  | 0 => .ok []
  | Nat.succ m =>
    match data (start + 1) with
    | none => .error (.missingData (start + 1))
    | some y =>
      match trainLabels data (start + 1) m with
      | .error e => .error e
      | .ok rest => .ok (y :: rest)

/-- Embedding of `ISCH.train` (lines 109-136).  The prefetched per-index data
`self.data[i]['stable']` is the parameter `data`; `iEpiweek` and `iLast` are
the indices `self.ew2i[epiweek]` and `self.ew2i[LAST_DATA_EPIWEEK]` (the
`ew2i` table is a fixed enumeration of the epiweek range 199301..202330, kept
external together with the epiweek calendar).  The feature matrix holds only
calendar features; the returned value models the labels actually fit, after
the `[-max_training_instances:]` truncation. -/
def ISCH_train (weeks : List ℤ) (data : ℤ → Option ℚ) (iEpiweek iLast : ℤ) :
    Except ISCHTrainError (List ℚ) :=
  match weeks.get? 2 with
  | none => .error .indexError
  | some i1 =>
    let i2 := min (iEpiweek - 5) (iLast - 1)
    if i2 < i1 then .error (.insufficientHistory (i1 - i2))
    else
      let num_weeks := (i2 - i1 + 1).toNat
      match trainLabels data i1 num_weeks with
      | .error e => .error e
      | .ok Y =>
        let min_training_instances : ℤ := max (10 * (featureCount : ℤ)) 52
        if (num_weeks : ℤ) < min_training_instances then
          .error (.insufficientTrainingData num_weeks min_training_instances)
        else
          let max_training_instances := 50 * featureCount
          .ok (Y.drop (Y.length - max_training_instances))

/-! ## sensor_update.py: SensorUpdate -/

/-- Row of the `datasetname_sensors` table as written by
`database.insert(self.target, name, location, test_week, value)`. -/
structure SensorRow where
  target : String
  name : String
  location : String
  epiweek : ℤ
  value : ℚ
deriving DecidableEq, Repr

/-- Embedding of `SensorUpdate.update_single`: the sensor implementation is
called on `train_week = test_week - 1`; any error it raises is caught (and
logged), leaving `value = None`; `database.insert` runs exactly when a value
was produced.  The database connection is modelled as the list of inserted
rows. -/
def update_single (impl : String → ℤ → Bool → String → Except String ℚ)
    (valid : Bool) (target : String) (database : List SensorRow)
    (test_week : ℤ) (name location : String) : List SensorRow :=
  let train_week := test_week - 1
  match impl location train_week valid target with
  | .ok value => database ++ [⟨target, name, location, test_week, value⟩]
  | .error _ => database

/-- Embedding of the per-(sensor, location) week loop of `SensorUpdate.update`
(lines 342-343): `update_single` on every test week of the range, in order. -/
def update_weeks (impl : String → ℤ → Bool → String → Except String ℚ)
    (valid : Bool) (target : String) (database : List SensorRow)
    (test_weeks : List ℤ) (name location : String) : List SensorRow :=
  test_weeks.foldl
    (fun db test_week => update_single impl valid target db test_week name location)
    database

/-! ## Concrete data for witnesses -/

/-- Tiny geography for witnesses: every location contains the single atom
`"aa"`, and every atom has population `3`. -/
def gW1 : GeoData := ⟨fun _ => ["aa"], fun _ _ => 3⟩

/-- Geography for the zero-population witness: no location contains any
atom. -/
def gW7 : GeoData := ⟨fun _ => [], fun _ _ => 3⟩

/-! ## Helper lemmas -/

theorem list_map_div_sum (l : List ℚ) (c : ℚ) :
    (l.map (fun x => x / c)).sum = l.sum / c := by
  induction l with
  | nil => simp
  | cons x xs ih => simp [ih, add_div]

/-! ## Claims -/

/-- C1: for every location `L` passed to `get_weight_row` with at least one
constituent atom of nonzero population, the returned row of per-atom weights
is computed in exact rational arithmetic — each weight is the atom's
population divided by the row total — and sums to exactly 1; atoms not
contained in `L` (after the `ny` remapping) get weight zero. -/
theorem get_weight_row_row_stochastic (g : GeoData) (location : String)
    (season : Option ℕ) (atoms : List String)
    (hpop : ∃ atom ∈ atoms, atomPopulation g location season atom ≠ 0) :
    get_weight_row g location season atoms =
      .ok (atoms.map (fun atom =>
        (atomPopulation g location season atom : ℚ) /
          (rowTotal g location season atoms : ℚ))) ∧
    (atoms.map (fun atom =>
        (atomPopulation g location season atom : ℚ) /
          (rowTotal g location season atoms : ℚ))).sum = 1 ∧
    ∀ atom ∈ atoms, (∀ ra ∈ remapAtom atom, ra ∉ g.regionMap location) →
      (atomPopulation g location season atom : ℚ) /
        (rowTotal g location season atoms : ℚ) = 0 := by
  obtain ⟨a0, ha0, hpos⟩ := hpop
  have htot : rowTotal g location season atoms ≠ 0 := by
    unfold rowTotal
    intro h
    apply hpos
    have hmem : atomPopulation g location season a0 ∈
        atoms.map (atomPopulation g location season) :=
      List.mem_map_of_mem _ ha0
    have hle : atomPopulation g location season a0 ≤
        (atoms.map (atomPopulation g location season)).sum :=
      List.single_le_sum (fun x _ => Nat.zero_le x) _ hmem
    omega
  have hcastne : ((rowTotal g location season atoms : ℚ)) ≠ 0 := by
    exact_mod_cast htot
  refine ⟨?_, ?_, ?_⟩
  · unfold get_weight_row
    rw [if_neg (by exact htot)]
    rw [List.map_map]
    rfl
  · have hmm : atoms.map (fun atom =>
        (atomPopulation g location season atom : ℚ) /
          (rowTotal g location season atoms : ℚ)) =
        (atoms.map (fun atom =>
          (atomPopulation g location season atom : ℚ))).map
          (fun x => x / (rowTotal g location season atoms : ℚ)) := by
      rw [List.map_map]
      rfl
    rw [hmm, list_map_div_sum]
    have hsum : (atoms.map (fun atom =>
        (atomPopulation g location season atom : ℚ))).sum =
        ((rowTotal g location season atoms : ℕ) : ℚ) := by
      unfold rowTotal
      rw [Nat.cast_list_sum, List.map_map]
      rfl
    rw [hsum, div_self hcastne]
  · intro atom _ hnot
    have hz : atomPopulation g location season atom = 0 := by
      unfold atomPopulation
      have : (remapAtom atom).map (fun remapping_atom =>
          if remapping_atom ∈ g.regionMap location then
            match season with
            | some s => g.getPop remapping_atom (some (max s 2013))
            | none => g.getPop remapping_atom none
          else 0) = (remapAtom atom).map (fun _ => 0) := by
        apply List.map_congr_left
        intro ra hra
        rw [if_neg (hnot ra hra)]
      rw [this]
      simp
    rw [hz]
    simp

/-- Witness for C1: in the tiny geography `gW1`, with atoms
`["aa", "bb"]` and location `"st"`, the atom `"aa"` is populated, and the
weight row evaluates to `[1, 0]`. -/
theorem get_weight_row_row_stochastic_witness :
    (∃ atom ∈ ["aa", "bb"], atomPopulation gW1 "st" none atom ≠ 0) ∧
    get_weight_row gW1 "st" none ["aa", "bb"] = .ok [1, 0] := by
  refine ⟨by decide, ?_⟩
  have h := (get_weight_row_row_stochastic gW1 "st" none ["aa", "bb"]
    (by decide)).1
  rw [h]
  have h1 : atomPopulation gW1 "st" none "aa" = 3 := by decide
  have h2 : atomPopulation gW1 "st" none "bb" = 0 := by decide
  have h3 : rowTotal gW1 "st" none ["aa", "bb"] = 3 := by decide
  simp [h1, h2, h3]

/-- Weight rows in the tiny geography `gW1` are `[1, 0]` for every location:
the atom `"aa"` carries the whole population. -/
theorem gW1_weight_row (loc : String) :
    get_weight_row gW1 loc none ["aa", "bb"] = .ok [1, 0] := by
  have h1 : atomPopulation gW1 loc none "aa" = 3 := rfl
  have h2 : atomPopulation gW1 loc none "bb" = 0 := rfl
  unfold get_weight_row
  simp [h1, h2]

/-- Weight matrices in the tiny geography `gW1`: one `[1, 0]` row per
location. -/
theorem gW1_weight_matrix (locs : List String) :
    get_weight_matrix gW1 locs none ["aa", "bb"] =
      .ok (locs.map (fun _ => [1, 0])) := by
  induction locs with
  | nil => rfl
  | cons l ls ih =>
    unfold get_weight_matrix
    rw [gW1_weight_row, ih]
    rfl

/-- When a weight matrix is built successfully, every requested location has a
successfully built weight row. -/
theorem get_weight_matrix_ok_forall {g : GeoData} {locs : List String}
    {season : Option ℕ} {atoms : List String} {M : List (List ℚ)}
    (h : get_weight_matrix g locs season atoms = .ok M) :
    ∀ loc ∈ locs, ∃ row, get_weight_row g loc season atoms = .ok row := by
  induction locs generalizing M with
  | nil => intro loc hloc; cases hloc
  | cons l ls ih =>
    intro loc hloc
    unfold get_weight_matrix at h
    cases hrow : get_weight_row g l season atoms with
    | error e => rw [hrow] at h; cases h
    | ok row =>
      rw [hrow] at h
      cases hm : get_weight_matrix g ls season atoms with
      | error e => rw [hm] at h; cases h
      | ok m =>
        rw [hm] at h
        rcases List.mem_cons.mp hloc with rfl | hmem
        · exact ⟨row, hrow⟩
        · exact ih hm loc hmem

/-- C2: for every call to `determine_statespace` in which `input_locations`
is a superset of the atom universe filtered by `exclude_locations` (and the
call is otherwise valid: the sets are disjoint and both weight matrices
build), the returned triple is exactly `(H0, W0, filtered output catalogue)`
— the raw atomic weight matrices and the unchanged filtered location list —
for every possible external statespace-reduction operation, so the reduction
is never invoked. -/
theorem determine_statespace_fast_path
    (g : GeoData) (all_locations_catalog atomic_locations input_locations :
      List String) (season : Option ℕ) (exclude_locations : List String)
    (H0 W0 : List (List ℚ))
    (hdisj : ∀ x ∈ exclude_locations, x ∉ input_locations)
    (hsup : ∀ a ∈ atomic_locations.filter (atom_filter exclude_locations),
      a ∈ input_locations)
    (hH : get_weight_matrix g input_locations season
      (atomic_locations.filter (atom_filter exclude_locations)) = .ok H0)
    (hW : get_weight_matrix g
      (all_locations_catalog.filter (atom_filter exclude_locations)) season
      (atomic_locations.filter (atom_filter exclude_locations)) = .ok W0) :
    ∀ reduce, determine_statespace reduce g all_locations_catalog
      atomic_locations input_locations season exclude_locations =
      .ok (H0, W0,
        all_locations_catalog.filter (atom_filter exclude_locations)) := by
  intro reduce
  unfold determine_statespace
  have hguard : exclude_locations.any
      (fun x => decide (x ∈ input_locations)) = false := by
    rw [List.any_eq_false]
    intro x hx
    simpa using hdisj x hx
  rw [hguard]
  rw [if_neg Bool.false_ne_true]
  rw [hH, hW]
  have hall : (atomic_locations.filter (atom_filter exclude_locations)).all
      (fun a => decide (a ∈ input_locations)) = true := by
    rw [List.all_eq_true]
    intro a ha
    simpa using hsup a ha
  exact if_pos hall

/-- Witness for C2: with both atoms as inputs and nothing excluded, the fast
path returns the two raw weight matrices and the unchanged catalogue, even
under a reducer that would return garbage. -/
theorem determine_statespace_fast_path_witness :
    determine_statespace (fun _ _ => ([], [], [])) gW1 ["aa", "bb"]
      ["aa", "bb"] ["aa", "bb"] none [] =
      .ok ([[1, 0], [1, 0]], [[1, 0], [1, 0]], ["aa", "bb"]) := by
  have hfilter : (["aa", "bb"].filter (atom_filter [])) = ["aa", "bb"] := rfl
  have h := determine_statespace_fast_path gW1 ["aa", "bb"] ["aa", "bb"]
    ["aa", "bb"] none [] [[1, 0], [1, 0]] [[1, 0], [1, 0]]
    (by intro x hx; cases hx)
    (by decide)
    (by rw [hfilter]; exact gW1_weight_matrix ["aa", "bb"])
    (by rw [hfilter]; exact gW1_weight_matrix ["aa", "bb"])
    (fun _ _ => ([], [], []))
  exact h

/-- C6: for every call to `determine_statespace` in which `exclude_locations`
and `input_locations` have a non-empty intersection, the call fails with the
`InvalidStatespaceRequest` error before any matrix is built, and no result is
returned. -/
theorem determine_statespace_disjointness
    (reduce : List (List ℚ) → List (List ℚ) →
      List (List ℚ) × List (List ℚ) × List ℕ)
    (g : GeoData) (all_locations_catalog atomic_locations input_locations :
      List String) (season : Option ℕ) (exclude_locations : List String)
    (hoverlap : ∃ x, x ∈ exclude_locations ∧ x ∈ input_locations) :
    determine_statespace reduce g all_locations_catalog atomic_locations
      input_locations season exclude_locations =
      .error .invalidStatespaceRequest := by
  unfold determine_statespace
  have hguard : exclude_locations.any
      (fun x => decide (x ∈ input_locations)) = true := by
    rw [List.any_eq_true]
    obtain ⟨x, h1, h2⟩ := hoverlap
    exact ⟨x, h1, by simpa using h2⟩
  rw [hguard]
  rw [if_pos rfl]

/-- Witness for C6: excluding an input location is rejected. -/
theorem determine_statespace_disjointness_witness :
    determine_statespace (fun _ _ => ([], [], [])) gW1 ["aa"] ["aa"] ["aa"]
      none ["aa"] = .error .invalidStatespaceRequest :=
  determine_statespace_disjointness (fun _ _ => ([], [], [])) gW1 ["aa"]
    ["aa"] ["aa"] none ["aa"] ⟨"aa", by decide, by decide⟩

/-- C7: a location `L` whose every constituent atom (after the
`ny → {ny_minus_jfk, jfk}` remapping) has zero population over the filtered
atom set makes `get_weight_row` fail with `EmptyLocationError` carrying `L`,
and when `L` is among the input locations the enclosing statespace request
returns no matrices. -/
theorem empty_location_no_matrices
    (reduce : List (List ℚ) → List (List ℚ) →
      List (List ℚ) × List (List ℚ) × List ℕ)
    (g : GeoData) (all_locations_catalog atomic_locations input_locations :
      List String) (season : Option ℕ) (exclude_locations : List String)
    (L : String) (hL : L ∈ input_locations)
    (hzero : ∀ atom ∈ atomic_locations.filter (atom_filter exclude_locations),
      atomPopulation g L season atom = 0) :
    get_weight_row g L season
      (atomic_locations.filter (atom_filter exclude_locations)) =
      .error (.emptyLocation L) ∧
    ∀ result, determine_statespace reduce g all_locations_catalog
      atomic_locations input_locations season exclude_locations ≠
      .ok result := by
  have hrow : get_weight_row g L season
      (atomic_locations.filter (atom_filter exclude_locations)) =
      .error (.emptyLocation L) := by
    unfold get_weight_row
    have hsum : ((atomic_locations.filter
        (atom_filter exclude_locations)).map
        (atomPopulation g L season)).sum = 0 :=
      List.sum_eq_zero (by
        intro x hx
        obtain ⟨atom, hatom, rfl⟩ := List.mem_map.mp hx
        exact hzero atom hatom)
    rw [if_pos hsum]
  refine ⟨hrow, ?_⟩
  intro result h
  unfold determine_statespace at h
  by_cases hg : exclude_locations.any
      (fun x => decide (x ∈ input_locations)) = true
  · rw [hg, if_pos rfl] at h
    cases h
  · rw [eq_false_of_ne_true hg, if_neg Bool.false_ne_true] at h
    cases hH : get_weight_matrix g input_locations season
        (atomic_locations.filter (atom_filter exclude_locations)) with
    | error e => rw [hH] at h; cases h
    | ok H0 =>
      obtain ⟨row, hrowok⟩ := get_weight_matrix_ok_forall hH L hL
      rw [hrow] at hrowok
      cases hrowok

/-- Witness for C7: in the geography `gW7` no location contains any atom, so
the single input location `"st"` has zero total population, its weight row
fails with `EmptyLocationError "st"`, and the statespace request returns
nothing. -/
theorem empty_location_no_matrices_witness :
    get_weight_row gW7 "st" none (["aa"].filter (atom_filter [])) =
      .error (.emptyLocation "st") ∧
    ∀ result, determine_statespace (fun _ _ => ([], [], [])) gW7 ["aa"]
      ["aa"] ["st"] none [] ≠ .ok result :=
  empty_location_no_matrices (fun _ _ => ([], [], [])) gW7 ["aa"] ["aa"]
    ["st"] none [] "st" (by decide) (by decide)

/-- C9: for every epiweek for which no atomic location has a ground-truth
value, `get_missing_locations` returns the empty set (treating every location
as reporting); for every epiweek where at least one atom has a value, it
returns exactly the set of atomic locations whose truth value is absent. -/
theorem get_missing_locations_spec (truth : ℤ → String → Option ℚ)
    (epiweek : ℤ) :
    ((∀ loc ∈ ATOMIC_LOCATIONS, truth epiweek loc = none) →
      get_missing_locations truth epiweek = ∅) ∧
    ((∃ loc ∈ ATOMIC_LOCATIONS, (truth epiweek loc).isSome) →
      ∀ loc, loc ∈ get_missing_locations truth epiweek ↔
        loc ∈ ATOMIC_LOCATIONS ∧ truth epiweek loc = none) := by
  constructor
  · intro hnone
    have hempty : (ATOMIC_LOCATIONS.toFinset.filter
        (fun loc => (truth epiweek loc).isSome)) = ∅ := by
      rw [Finset.filter_eq_empty_iff]
      intro loc hloc
      rw [hnone loc (List.mem_toFinset.mp hloc)]
      simp
    simp only [get_missing_locations, hempty]
    simp
  · intro hsome loc
    have hne : (ATOMIC_LOCATIONS.toFinset.filter
        (fun loc => (truth epiweek loc).isSome)).Nonempty := by
      obtain ⟨l, hl, hs⟩ := hsome
      exact ⟨l, Finset.mem_filter.mpr ⟨List.mem_toFinset.mpr hl, hs⟩⟩
    simp only [get_missing_locations, if_pos hne]
    rw [Finset.mem_sdiff, Finset.mem_filter]
    simp only [List.mem_toFinset]
    constructor
    · rintro ⟨hmem, hnotavail⟩
      refine ⟨hmem, ?_⟩
      rcases h : truth epiweek loc with _ | v
      · rfl
      · exact absurd ⟨hmem, by rw [h]; rfl⟩ hnotavail
    · rintro ⟨hmem, hnone⟩
      exact ⟨hmem, fun hc => by rw [hnone] at hc; exact Bool.false_ne_true hc.2⟩

/-- Keys of a Python-dict upsert: the keys of the original dict, plus the
inserted key. -/
theorem mem_keys_upsert {α : Type} (m : List (ℤ × α)) (k : ℤ) (v : α) (a : ℤ)
    (h : a ∈ (upsert m k v).map Prod.fst) : a ∈ m.map Prod.fst ∨ a = k := by
  unfold upsert at h
  by_cases hc : (m.any fun p => decide (p.1 = k)) = true
  · rw [if_pos hc] at h
    rw [List.map_map] at h
    obtain ⟨p, hp, hfp⟩ := List.mem_map.mp h
    by_cases hpk : p.1 = k
    · right
      rw [← hfp]
      simp [hpk]
    · left
      rw [← hfp]
      simp only [Function.comp_apply, if_neg hpk]
      exact List.mem_map_of_mem Prod.fst hp
  · rw [if_neg hc] at h
    rw [List.map_append] at h
    rcases List.mem_append.mp h with h1 | h2
    · exact Or.inl h1
    · right
      simpa using h2

/-- The training-set fold never creates an entry keyed by the prediction
target week `ew3`. -/
theorem fold_keys_ne_target (groundTruth : List (ℤ × ℚ))
    (ew3 signal_to_truth_ew_shift : ℤ) :
    ∀ (sig : List (ℤ × List ℚ)) (acc : List (ℤ × (List ℚ × ℚ))),
      ew3 ∉ acc.map Prod.fst →
      ew3 ∉ (sig.foldl
        (trainingFold groundTruth ew3 signal_to_truth_ew_shift) acc).map
        Prod.fst := by
  intro sig
  induction sig with
  | nil => intro acc h; exact h
  | cons p ps ih =>
    intro acc hacc
    rw [List.foldl_cons]
    apply ih
    unfold trainingFold
    by_cases h1 : p.1 + signal_to_truth_ew_shift = ew3
    · rw [if_pos h1]
      exact hacc
    · rw [if_neg h1]
      cases hfind : dictFind (α := ℚ) groundTruth
          (p.1 + signal_to_truth_ew_shift) with
      | none => exact hacc
      | some label =>
        intro hmem
        rcases mem_keys_upsert _ _ _ _ hmem with hold | heq
        · exact hacc hold
        · exact h1 heq.symm

/-- C10: for every `fit_loch_ness` call, the constructed training set never
contains a (covariate, label) pair whose ground-truth week equals the
prediction target week `ew3` (the week after the given epiweek): that week is
explicitly skipped during training-set assembly, so the predicted week's
label is never used in the fit. -/
theorem training_set_skips_target_week (groundTruthRows : List (ℤ × ℚ))
    (signal : List (ℤ × List ℚ)) (ew3 signal_to_truth_ew_shift : ℤ) :
    ew3 ∉ (get_training_set_datasetname groundTruthRows signal ew3
      signal_to_truth_ew_shift).1 := by
  simp only [get_training_set_datasetname]
  rw [List.mem_mergeSort]
  exact fold_keys_ne_target _ ew3 signal_to_truth_ew_shift signal []
    (by intro h; cases h)

/-- C8: the orchestrator's week loop processes every test week in order; an
implementation failure for a week leaves the database untouched for that week
and the loop continues; a row is inserted exactly for the weeks on which the
implementation returned a value, each computed from `train_week =
test_week - 1`. -/
theorem update_weeks_persists_exactly_successes
    (impl : String → ℤ → Bool → String → Except String ℚ) (valid : Bool)
    (target : String) (database : List SensorRow) (test_weeks : List ℤ)
    (name location : String) :
    update_weeks impl valid target database test_weeks name location =
      database ++ test_weeks.filterMap (fun test_week =>
        match impl location (test_week - 1) valid target with
        | .ok value => some ⟨target, name, location, test_week, value⟩
        | .error _ => none) := by
  induction test_weeks generalizing database with
  | nil => simp [update_weeks]
  | cons w ws ih =>
    have hstep : update_weeks impl valid target database (w :: ws) name
        location = update_weeks impl valid target
        (update_single impl valid target database w name location) ws name
        location := rfl
    rw [hstep, ih]
    unfold update_single
    cases himpl : impl location (w - 1) valid target with
    | ok v => simp [List.filterMap_cons, himpl]
    | error e => simp [List.filterMap_cons, himpl]

/-- C5: for every `fit_loch_ness` call whose covariate signal does contain a
value for the target week `ew3 = epiweek + 1`: if fewer than
`max(10 × covariate_count, 52)` covariate observations exist the call fails
with the insufficient-signal-history error, and with at least that many
observations it proceeds to label alignment (the only remaining outcomes are
a fitted value or the label-history error raised after alignment). -/
theorem fit_loch_ness_signal_history
    (getModel : ℤ → List ℤ → List (List ℚ) → List ℚ → List ℚ)
    (applyModel : ℤ → List ℚ → List ℚ → ℚ)
    (name : String) (fields : List String)
    (rows : List (ℤ × (String → ℚ))) (groundTruthRows : List (ℤ × ℚ))
    (epiweek signal_to_truth_ew_shift : ℤ)
    (hsig : (dictFind (extractSignal fields rows signal_to_truth_ew_shift)
      (epiweek + 1)).isSome) :
    ((extractSignal fields rows signal_to_truth_ew_shift).length <
        max (10 * fields.length) 52 →
      fit_loch_ness getModel applyModel name fields rows groundTruthRows
        epiweek signal_to_truth_ew_shift =
        .error (.insufficientSignalHistory name
          (max (10 * fields.length) 52))) ∧
    (max (10 * fields.length) 52 ≤
        (extractSignal fields rows signal_to_truth_ew_shift).length →
      (∃ value, fit_loch_ness getModel applyModel name fields rows
        groundTruthRows epiweek signal_to_truth_ew_shift = .ok value) ∨
      (∃ m, fit_loch_ness getModel applyModel name fields rows
        groundTruthRows epiweek signal_to_truth_ew_shift =
        .error (.insufficientLabelHistory m))) := by
  obtain ⟨values, hv⟩ := Option.isSome_iff_exists.mp hsig
  have hnone : (dictFind (extractSignal fields rows signal_to_truth_ew_shift)
      (epiweek + 1)).isNone = false := by
    rw [hv]
    rfl
  constructor
  · intro hlen
    simp only [fit_loch_ness]
    rw [hnone, if_neg Bool.false_ne_true, if_pos hlen]
  · intro hlen
    simp only [fit_loch_ness]
    rw [hnone, if_neg Bool.false_ne_true, if_neg (not_lt.mpr hlen)]
    by_cases hY : (get_training_set_datasetname groundTruthRows
        (extractSignal fields rows signal_to_truth_ew_shift) (epiweek + 1)
        signal_to_truth_ew_shift).2.2.length <
        max (10 * fields.length) 52 - 1
    · right
      exact ⟨_, by rw [if_pos hY]⟩
    · left
      exact ⟨_, by rw [if_neg hY]⟩

/-- Witness for C5: ten signal weeks `0..9` (including the target week `9`)
are fewer than the required 52, so the call fails with the
insufficient-signal-history error. -/
theorem fit_loch_ness_signal_history_witness :
    fit_loch_ness (fun _ _ _ _ => []) (fun _ _ _ => 0) "ght" ["value"]
      ((List.range 10).map (fun i => ((i : ℤ), fun _ => (1 : ℚ)))) [] 8 0 =
      .error (.insufficientSignalHistory "ght" 52) := by
  have h := (fit_loch_ness_signal_history (fun _ _ _ _ => [])
    (fun _ _ _ => 0) "ght" ["value"]
    ((List.range 10).map (fun i => ((i : ℤ), fun _ => (1 : ℚ)))) [] 8 0
    (by decide)).1 (by decide)
  simpa using h

/-- When data is present throughout a window, the label-gathering loop of
`ISCH.train` succeeds and yields one label per window index. -/
theorem trainLabels_ok (data : ℤ → Option ℚ) :
    ∀ (n : ℕ) (start : ℤ),
      (∀ i : ℤ, start ≤ i → i < start + n → (data (i + 1)).isSome) →
      ∃ Y, trainLabels data start n = .ok Y ∧ Y.length = n := by
  intro n
  induction n with
  | zero => exact fun start _ => ⟨[], rfl, rfl⟩
  | succ m ih =>
    intro start h
    have h0 : (data (start + 1)).isSome :=
      h start le_rfl (by push_cast; omega)
    obtain ⟨y, hy⟩ := Option.isSome_iff_exists.mp h0
    obtain ⟨Y, hY, hlen⟩ := ih (start + 1) (fun i hi1 hi2 =>
      h i (by omega) (by push_cast at hi2 ⊢; omega))
    refine ⟨y :: Y, ?_, by simpa using hlen⟩
    unfold trainLabels
    rw [hy, hY]

/-- C4: for every `ISCH.train` call whose resolved training window
`[i1, i2]` is non-empty (with data present throughout it), if the number of
training instances `i2 - i1 + 1` in the window is fewer than
`max(10 × feature_count, 52) = 70`, the call raises the
insufficient-training-data error, and if the window contains exactly that
minimum number of instances the fit succeeds. -/
theorem ISCH_train_window_sufficiency (weeks : List ℤ)
    (data : ℤ → Option ℚ) (iEpiweek iLast i1 : ℤ)
    (hi1 : weeks.get? 2 = some i1)
    (hnonempty : i1 ≤ min (iEpiweek - 5) (iLast - 1))
    (hdata : ∀ i : ℤ, i1 ≤ i → i ≤ min (iEpiweek - 5) (iLast - 1) →
      (data (i + 1)).isSome) :
    (min (iEpiweek - 5) (iLast - 1) - i1 + 1 < 70 →
      ISCH_train weeks data iEpiweek iLast =
        .error (.insufficientTrainingData
          (min (iEpiweek - 5) (iLast - 1) - i1 + 1)
          (max (10 * (featureCount : ℤ)) 52))) ∧
    (min (iEpiweek - 5) (iLast - 1) - i1 + 1 = 70 →
      ∃ Y, ISCH_train weeks data iEpiweek iLast = .ok Y) := by
  set i2 := min (iEpiweek - 5) (iLast - 1) with hi2
  have hcast : ((i2 - i1 + 1).toNat : ℤ) = i2 - i1 + 1 :=
    Int.toNat_of_nonneg (by omega)
  obtain ⟨Y, hY, hYlen⟩ := trainLabels_ok data (i2 - i1 + 1).toNat i1
    (fun i hge hlt => hdata i hge (by omega))
  have hstep : ISCH_train weeks data iEpiweek iLast =
      if ((i2 - i1 + 1).toNat : ℤ) < max (10 * (featureCount : ℤ)) 52 then
        .error (.insufficientTrainingData ((i2 - i1 + 1).toNat : ℤ)
          (max (10 * (featureCount : ℤ)) 52))
      else
        .ok (Y.drop (Y.length - 50 * featureCount)) := by
    unfold ISCH_train
    rw [hi1]
    simp only [← hi2, hY]
    rw [if_neg (not_lt.mpr hnonempty)]
  constructor
  · intro hlt
    rw [hstep]
    rw [if_pos (by rw [hcast]; simp only [featureCount]; push_cast; omega)]
    rw [hcast]
  · intro heq
    rw [hstep]
    rw [if_neg (by rw [hcast]; simp only [featureCount]; push_cast; omega)]
    exact ⟨_, rfl⟩

/-- Witness for C4: with data weeks `[0, 1, 2]` the window starts at
`i1 = 2`; choosing `iEpiweek = 76` and `iLast = 72` makes the window
`[2, 71]` hold exactly 70 instances, and the fit succeeds. -/
theorem ISCH_train_window_sufficiency_witness :
    ∃ Y, ISCH_train [0, 1, 2] (fun _ => some 0) 76 72 = .ok Y :=
  (ISCH_train_window_sufficiency [0, 1, 2] (fun _ => some 0) 76 72 2
    (by decide) (by decide) (fun _ _ _ => rfl)).2 (by decide)

/-- Closed form of the kernel weight, with the `let` bindings of the source
spelled out. -/
theorem get_weight_eq (dw : ℝ) :
    get_weight dw =
      (0.05 + (1 - 0.05) *
        Real.exp (-((min (fmod dw 52.2) (52.2 - fmod dw 52.2) / 4) ^ 2))) *
      (2 : ℝ) ^ (-(dw / 52.2)) * (1 - (2 : ℝ) ^ (-(dw / 1))) := rfl

/-- Python float modulo is invariant under adding the (positive) modulus. -/
theorem fmod_add_self (x y : ℝ) (hy : y ≠ 0) : fmod (x + y) y = fmod x y := by
  unfold fmod
  have hdiv : (x + y) / y = x / y + 1 := by
    rw [add_div, div_self hy]
  rw [hdiv, Int.floor_add_one]
  push_cast
  ring

/-- Counterexample for C3: the distances 26 and 52 both exceed the
seasonal-bump radius (4 weeks), 52 > 26, yet the kernel weight at distance 52
is strictly larger than at distance 26 — the seasonal bump recurs each
~52.2-week period, so the weight is not monotone beyond the bump radius. -/
theorem get_weight_not_monotone_beyond_bump : get_weight 26 < get_weight 52 := by
  rw [get_weight_eq, get_weight_eq]
  have hf26 : fmod 26 52.2 = 26 := by
    unfold fmod
    have hfl : ⌊(26 : ℝ) / 52.2⌋ = 0 := by
      rw [Int.floor_eq_zero_iff, Set.mem_Ico]
      constructor
      · positivity
      · rw [div_lt_one (by norm_num)]
        norm_num
    rw [hfl]
    norm_num
  have hf52 : fmod 52 52.2 = 52 := by
    unfold fmod
    have hfl : ⌊(52 : ℝ) / 52.2⌋ = 0 := by
      rw [Int.floor_eq_zero_iff, Set.mem_Ico]
      constructor
      · positivity
      · rw [div_lt_one (by norm_num)]
        norm_num
    rw [hfl]
    norm_num
  rw [hf26, hf52]
  have hmin26 : min (26 : ℝ) (52.2 - 26) = 26 := by
    rw [min_eq_left]
    norm_num
  have hmin52 : min (52 : ℝ) (52.2 - 52) = 52.2 - 52 := by
    rw [min_eq_right]
    norm_num
  rw [hmin26, hmin52]
  have hsq26 : ((26 : ℝ) / 4) ^ 2 = 42.25 := by norm_num
  have hsq52 : (((52.2 : ℝ) - 52) / 4) ^ 2 = 0.0025 := by norm_num
  rw [hsq26, hsq52]
  have hb1 : Real.exp (-(42.25 : ℝ)) ≤ 1 / 43 := by
    rw [Real.exp_neg]
    have hexp : (43.25 : ℝ) ≤ Real.exp 42.25 := by
      have := Real.add_one_le_exp (42.25 : ℝ)
      linarith
    calc (Real.exp 42.25)⁻¹ ≤ (43.25 : ℝ)⁻¹ :=
          inv_anti₀ (by norm_num) hexp
      _ ≤ 1 / 43 := by norm_num
  have hb1nn : (0 : ℝ) ≤ Real.exp (-(42.25 : ℝ)) := Real.exp_nonneg _
  have hb2 : (0.9975 : ℝ) ≤ Real.exp (-(0.0025 : ℝ)) := by
    have := Real.add_one_le_exp (-(0.0025 : ℝ))
    linarith
  have hF1nn : (0 : ℝ) ≤ 0.05 + (1 - 0.05) * Real.exp (-(42.25 : ℝ)) := by
    nlinarith
  have hF2nn : (0 : ℝ) ≤ 0.05 + (1 - 0.05) * Real.exp (-(0.0025 : ℝ)) := by
    nlinarith [Real.exp_nonneg (-(0.0025 : ℝ))]
  have hc1le : (2 : ℝ) ^ (-((26 : ℝ) / 52.2)) ≤ 1 := by
    apply Real.rpow_le_one_of_one_le_of_nonpos (by norm_num)
    rw [neg_nonpos]
    positivity
  have hc1nn : (0 : ℝ) ≤ (2 : ℝ) ^ (-((26 : ℝ) / 52.2)) :=
    Real.rpow_nonneg (by norm_num) _
  have he1nn : (0 : ℝ) ≤ (2 : ℝ) ^ (-((26 : ℝ) / 1)) :=
    Real.rpow_nonneg (by norm_num) _
  have he1le : (2 : ℝ) ^ (-((26 : ℝ) / 1)) ≤ 1 := by
    apply Real.rpow_le_one_of_one_le_of_nonpos (by norm_num)
    rw [neg_nonpos]
    positivity
  have hc2ge : (1 / 2 : ℝ) ≤ (2 : ℝ) ^ (-((52 : ℝ) / 52.2)) := by
    have h := (Real.rpow_le_rpow_left_iff
      (by norm_num : (1 : ℝ) < 2)).mpr
      (by rw [neg_le_neg_iff, div_le_one (by norm_num)]; norm_num :
        -(1 : ℝ) ≤ -((52 : ℝ) / 52.2))
    rw [Real.rpow_neg_one] at h
    calc (1 / 2 : ℝ) = (2 : ℝ)⁻¹ := by norm_num
      _ ≤ _ := h
  have he2le : (2 : ℝ) ^ (-((52 : ℝ) / 1)) ≤ 1 / 2 := by
    have h := (Real.rpow_le_rpow_left_iff
      (by norm_num : (1 : ℝ) < 2)).mpr
      (by rw [neg_le_neg_iff]; norm_num :
        -((52 : ℝ) / 1) ≤ -(1 : ℝ))
    rw [Real.rpow_neg_one] at h
    calc (2 : ℝ) ^ (-((52 : ℝ) / 1)) ≤ (2 : ℝ)⁻¹ := h
      _ = 1 / 2 := by norm_num
  have hLHS : (0.05 + (1 - 0.05) * Real.exp (-(42.25 : ℝ))) *
      (2 : ℝ) ^ (-((26 : ℝ) / 52.2)) * (1 - (2 : ℝ) ^ (-((26 : ℝ) / 1))) ≤
      0.05 + (1 - 0.05) * (1 / 43) := by
    calc (0.05 + (1 - 0.05) * Real.exp (-(42.25 : ℝ))) *
        (2 : ℝ) ^ (-((26 : ℝ) / 52.2)) * (1 - (2 : ℝ) ^ (-((26 : ℝ) / 1))) ≤
        (0.05 + (1 - 0.05) * Real.exp (-(42.25 : ℝ))) *
        (2 : ℝ) ^ (-((26 : ℝ) / 52.2)) * 1 := by
          apply mul_le_mul_of_nonneg_left (by linarith) (mul_nonneg hF1nn hc1nn)
      _ = (0.05 + (1 - 0.05) * Real.exp (-(42.25 : ℝ))) *
        (2 : ℝ) ^ (-((26 : ℝ) / 52.2)) := mul_one _
      _ ≤ (0.05 + (1 - 0.05) * Real.exp (-(42.25 : ℝ))) * 1 :=
          mul_le_mul_of_nonneg_left hc1le hF1nn
      _ = 0.05 + (1 - 0.05) * Real.exp (-(42.25 : ℝ)) := mul_one _
      _ ≤ 0.05 + (1 - 0.05) * (1 / 43) := by linarith
  have hRHS : (0.05 + (1 - 0.05) * 0.9975) * (1 / 2) * (1 / 2) ≤
      (0.05 + (1 - 0.05) * Real.exp (-(0.0025 : ℝ))) *
      (2 : ℝ) ^ (-((52 : ℝ) / 52.2)) * (1 - (2 : ℝ) ^ (-((52 : ℝ) / 1))) := by
    have hF2ge : (0.05 + (1 - 0.05) * 0.9975 : ℝ) ≤
        0.05 + (1 - 0.05) * Real.exp (-(0.0025 : ℝ)) := by linarith
    calc (0.05 + (1 - 0.05) * 0.9975 : ℝ) * (1 / 2) * (1 / 2) ≤
        (0.05 + (1 - 0.05) * Real.exp (-(0.0025 : ℝ))) * (1 / 2) * (1 / 2) := by
          apply mul_le_mul_of_nonneg_right
            (mul_le_mul_of_nonneg_right hF2ge (by norm_num)) (by norm_num)
      _ ≤ (0.05 + (1 - 0.05) * Real.exp (-(0.0025 : ℝ))) *
          (2 : ℝ) ^ (-((52 : ℝ) / 52.2)) * (1 / 2) := by
          apply mul_le_mul_of_nonneg_right
            (mul_le_mul_of_nonneg_left hc2ge hF2nn) (by norm_num)
      _ ≤ (0.05 + (1 - 0.05) * Real.exp (-(0.0025 : ℝ))) *
          (2 : ℝ) ^ (-((52 : ℝ) / 52.2)) *
          (1 - (2 : ℝ) ^ (-((52 : ℝ) / 1))) := by
          apply mul_le_mul_of_nonneg_left (by linarith)
            (mul_nonneg hF2nn (Real.rpow_nonneg (by norm_num) _))
  calc (0.05 + (1 - 0.05) * Real.exp (-(42.25 : ℝ))) *
      (2 : ℝ) ^ (-((26 : ℝ) / 52.2)) * (1 - (2 : ℝ) ^ (-((26 : ℝ) / 1))) ≤
      0.05 + (1 - 0.05) * (1 / 43) := hLHS
    _ < (0.05 + (1 - 0.05) * 0.9975) * (1 / 2) * (1 / 2) := by norm_num
    _ ≤ _ := hRHS

/-- C3 (amended): the kernel weight is not monotone in the temporal distance
beyond the seasonal-bump radius (see the counterexample at distances 26 and
52); what does hold is that increasing the distance by one full seasonal
period of `52.2` weeks — which preserves the seasonal alignment — strictly
decreases the kernel weight, for every distance `d ≥ 1`, all else equal. -/
theorem get_weight_period_shift_decreases (d : ℝ) (hd : 1 ≤ d) :
    get_weight (d + 52.2) < get_weight d := by
  rw [get_weight_eq, get_weight_eq]
  rw [fmod_add_self d 52.2 (by norm_num)]
  have hcsplit : (2 : ℝ) ^ (-((d + 52.2) / 52.2)) =
      (2 : ℝ) ^ (-(d / 52.2)) * (2 : ℝ) ^ (-(1 : ℝ)) := by
    rw [← Real.rpow_add (by norm_num : (0 : ℝ) < 2)]
    congr 1
    rw [add_div, div_self (by norm_num : (52.2 : ℝ) ≠ 0)]
    ring
  have hesplit : (2 : ℝ) ^ (-((d + 52.2) / 1)) =
      (2 : ℝ) ^ (-(d / 1)) * (2 : ℝ) ^ (-(52.2 : ℝ)) := by
    rw [← Real.rpow_add (by norm_num : (0 : ℝ) < 2)]
    congr 1
    rw [div_one, div_one]
    ring
  rw [hcsplit, hesplit, Real.rpow_neg_one]
  have hFpos : (0 : ℝ) < 0.05 + (1 - 0.05) *
      Real.exp (-((min (fmod d 52.2) (52.2 - fmod d 52.2) / 4) ^ 2)) := by
    nlinarith [Real.exp_nonneg
      (-((min (fmod d 52.2) (52.2 - fmod d 52.2) / 4) ^ 2))]
  have hcpos : (0 : ℝ) < (2 : ℝ) ^ (-(d / 52.2)) :=
    Real.rpow_pos_of_pos (by norm_num) _
  have hupos : (0 : ℝ) < (2 : ℝ) ^ (-(d / 1)) :=
    Real.rpow_pos_of_pos (by norm_num) _
  have hvpos : (0 : ℝ) < (2 : ℝ) ^ (-(52.2 : ℝ)) :=
    Real.rpow_pos_of_pos (by norm_num) _
  have huhalf : (2 : ℝ) ^ (-(d / 1)) ≤ 1 / 2 := by
    have h := (Real.rpow_le_rpow_left_iff
      (by norm_num : (1 : ℝ) < 2)).mpr
      (by rw [neg_le_neg_iff, div_one]; exact hd : -(d / 1) ≤ -(1 : ℝ))
    rw [Real.rpow_neg_one] at h
    calc (2 : ℝ) ^ (-(d / 1)) ≤ (2 : ℝ)⁻¹ := h
      _ = 1 / 2 := by norm_num
  have hkey : (1 / 2 : ℝ) *
      (1 - (2 : ℝ) ^ (-(d / 1)) * (2 : ℝ) ^ (-(52.2 : ℝ))) <
      1 - (2 : ℝ) ^ (-(d / 1)) := by
    nlinarith [mul_pos hupos hvpos]
  calc (0.05 + (1 - 0.05) *
      Real.exp (-((min (fmod d 52.2) (52.2 - fmod d 52.2) / 4) ^ 2))) *
      ((2 : ℝ) ^ (-(d / 52.2)) * (2 : ℝ)⁻¹) *
      (1 - (2 : ℝ) ^ (-(d / 1)) * (2 : ℝ) ^ (-(52.2 : ℝ))) =
      ((0.05 + (1 - 0.05) *
        Real.exp (-((min (fmod d 52.2) (52.2 - fmod d 52.2) / 4) ^ 2))) *
        (2 : ℝ) ^ (-(d / 52.2))) *
      ((1 / 2) *
        (1 - (2 : ℝ) ^ (-(d / 1)) * (2 : ℝ) ^ (-(52.2 : ℝ)))) := by ring
    _ < ((0.05 + (1 - 0.05) *
        Real.exp (-((min (fmod d 52.2) (52.2 - fmod d 52.2) / 4) ^ 2))) *
        (2 : ℝ) ^ (-(d / 52.2))) * (1 - (2 : ℝ) ^ (-(d / 1))) :=
        mul_lt_mul_of_pos_left hkey (mul_pos hFpos hcpos)
    _ = (0.05 + (1 - 0.05) *
        Real.exp (-((min (fmod d 52.2) (52.2 - fmod d 52.2) / 4) ^ 2))) *
        (2 : ℝ) ^ (-(d / 52.2)) * (1 - (2 : ℝ) ^ (-(d / 1))) := by ring

/-- Witness for the amended C3: one period beyond distance 1, the weight is
strictly smaller. -/
theorem get_weight_period_shift_decreases_witness :
    get_weight (1 + 52.2) < get_weight 1 :=
  get_weight_period_shift_decreases 1 le_rfl

end Nowcast
